import Mathlib

/-!
# Verification of the `BookCollection` personal-library manager

This file is a shallow embedding of `src/main.py`, a single-class Python
program managing a personal book collection persisted as a JSON file.

Modelling choices:

* JSON values are the inductive `Json`; Python dicts become ordered
  association lists (`List (String × Json)`), matching insertion-ordered
  Python dicts; lookup returns the first binding, assignment replaces the
  first binding or appends a new one at the end, exactly as for dicts whose
  keys are unique (JSON parsing and the program itself only ever produce
  unique keys).
* The backing file is modelled by `FileContent`: `missing` (FileNotFoundError
  on open), `malformed` (json.JSONDecodeError on parse), or `parsed j`
  (the parsed JSON document `j`).
* User interaction: each `input(...)` call becomes an explicit `String`
  argument (for the title-entry retry loop of `create_new_book`, the list of
  successive answers); printed confirmation / not-found messages are returned
  as strings.
* Fallible code: a Python exception that the program does not catch
  (`KeyError`, `AttributeError` on a non-dict entry, `.lower()` on a
  non-string, iterating a non-iterable JSON document) is modelled as `none`.
* `str.strip` / `str.lower` are modelled character-wise (`strTrim`,
  `strLower`); Python float division in `show_reading_progress` is modelled
  by exact rational division (all percentages appearing in the claims are
  exactly representable).
-/

/-- JSON values, as produced by the Python function `json.load`.  Python dicts are
insertion-ordered, so objects carry their fields as an ordered list. -/
inductive Json where
  | null
  | bool (b : Bool)
  | num (n : Int)
  | str (s : String)
  | arr (elems : List Json)
  | obj (fields : List (String × Json))

/-- Python `str.lower` (ASCII case folding suffices for this development). -/
def strLower (s : String) : String := ⟨s.data.map Char.toLower⟩

/-- Python `str.strip`: drop whitespace from both ends. -/
def strTrim (s : String) : String :=
  ⟨((s.data.dropWhile Char.isWhitespace).reverse.dropWhile Char.isWhitespace).reverse⟩

/-- Python substring test `pat in s` (the empty pattern is in every string). -/
def containsSub (s pat : String) : Bool := decide (pat.data <:+: s.data)

/-- Dict lookup `d[k]` / the successful case of `d.get(k)`: value of the first
binding of `k`, if any. -/
def lookupKey : List (String × Json) → String → Option Json
  | [], _ => none
  | (k', v) :: rest, k => if k' = k then some v else lookupKey rest k

/-- Python `k in d`. -/
def hasKey (kvs : List (String × Json)) (k : String) : Bool :=
  (lookupKey kvs k).isSome

/-- Python `d.get(k, dflt)`. -/
def getD (kvs : List (String × Json)) (k : String) (dflt : Json) : Json :=
  (lookupKey kvs k).getD dflt

/-- Dict assignment `d[k] = v`: replace the first binding of `k`, or append a
new binding at the end (Python dicts keep insertion order). -/
def setKey : List (String × Json) → String → Json → List (String × Json)
  | [], k, v => [(k, v)]
  | (k', v') :: rest, k, v =>
    if k' = k then (k, v) :: rest else (k', v') :: setKey rest k v

mutual

/-- Python `==` on JSON values (structural; object fields are compared in
order, which agrees with Python dict equality for the unique-key,
consistently-ordered dicts this program manipulates). -/
def Json.beq : Json → Json → Bool
  | .null, .null => true
  | .bool a, .bool b => a == b
  | .num a, .num b => a == b
  | .str a, .str b => a == b
  | .arr a, .arr b => Json.beqList a b
  | .obj a, .obj b => Json.beqFields a b
  | _, _ => false

def Json.beqList : List Json → List Json → Bool
  | [], [] => true
  | x :: xs, y :: ys => Json.beq x y && Json.beqList xs ys
  | _, _ => false

def Json.beqFields : List (String × Json) → List (String × Json) → Bool
  | [], [] => true
  | (k, v) :: xs, (l, w) :: ys => k == l && Json.beq v w && Json.beqFields xs ys
  | _, _ => false

end

/-- Python truthiness `bool(x)` of a JSON value (used by
`if book.get("read", False)`). -/
def Json.truthy : Json → Bool
  | .null => false
  | .bool b => b
  | .num n => n != 0
  | .str s => s != ""
  | .arr xs => !xs.isEmpty
  | .obj kvs => !kvs.isEmpty

/-- State of the backing file `book_data.json` as seen by `json.load`. -/
inductive FileContent where
  | missing
  | malformed
  | parsed (j : Json)

/-- The filter predicate of `read_from_file`:
`isinstance(book, dict) and "title" in book and "author" in book`. -/
def isValidEntry : Json → Bool
  | .obj kvs => hasKey kvs "title" && hasKey kvs "author"
  | _ => false

/-- `read_from_file`: parse the backing file; on `FileNotFoundError` or
`json.JSONDecodeError` start empty; on a parsed array keep only the valid
entries.  Iterating a parsed dict yields its keys (strings, never dicts) and
iterating a parsed string yields 1-character strings, so both give `[]`;
iterating a number / boolean / `null` raises an uncaught `TypeError`
(modelled as `none`). -/
def read_from_file : FileContent → Option (List Json)
  | .missing => some []
  | .malformed => some []
  | .parsed (.arr xs) => some (xs.filter isValidEntry)
  | .parsed (.obj _) => some []
  | .parsed (.str _) => some []
  | .parsed _ => none

/-- `save_to_file`: overwrite the backing file with the whole list serialized
as a JSON array (`json.dump(self.book_list, file, indent=4)`). -/
def save_to_file (book_list : List Json) : FileContent :=
  .parsed (.arr book_list)

/-- The `BookCollection` object state: the in-memory list and the current
content of its backing file. -/
structure BookCollection where
  book_list : List Json
  storage_file : FileContent

/-- The yes/no answer parsing shared verbatim by `create_new_book` and
`update_book`: `input(...).strip().lower() == "yes"`. -/
def parseReadAnswer (answer : String) : Bool :=
  strLower (strTrim answer) == "yes"

/-- The title-entry retry loop of `create_new_book`: successive answers are
stripped and the first non-empty one is accepted; `none` when the user never
supplies a non-empty title (the loop does not terminate on the given inputs). -/
def acceptTitle : List String → Option String
  | [] => none
  | answer :: rest =>
    let t := strTrim answer
    if t = "" then acceptTitle rest else some t

/-- `create_new_book`: gather the five inputs (retrying an empty title),
append the new record at the end and save. -/
def create_new_book (c : BookCollection) (titleInputs : List String)
    (authorInput yearInput genreInput readInput : String) : Option BookCollection :=
  (acceptTitle titleInputs).map fun book_title =>
    let book_author := strTrim authorInput
    let publication_year := strTrim yearInput
    let book_genre := strTrim genreInput
    let is_book_read := parseReadAnswer readInput
    let new_book : Json := .obj
      [("title", .str book_title), ("author", .str book_author),
       ("year", .str publication_year), ("genre", .str book_genre),
       ("read", .bool is_book_read)]
    let books := c.book_list ++ [new_book]
    { book_list := books, storage_file := save_to_file books }

/-- The matching test `book.get("title", "").lower() == book_title.lower()`
on the fields of a dict; `none` when the title value is not a string
(`.lower()` on a non-string raises an uncaught AttributeError/TypeError). -/
def titleMatches (kvs : List (String × Json)) (targetLower : String) : Option Bool :=
  match getD kvs "title" (.str "") with
  | .str s => some (strLower s == targetLower)
  | _ => none

/-- The same matching test on an arbitrary record; `none` when the record is
not a dict (`.get` on a non-dict raises an uncaught AttributeError). -/
def matchTitle (b : Json) (targetLower : String) : Option Bool :=
  match b with
  | .obj kvs => titleMatches kvs targetLower
  | _ => none

/-- The scan `for book in self.book_list: if <title matches>: ...` of
`delete_book`: first matching record, `some none` when the loop falls
through, `none` on an uncaught exception while testing. -/
def findFirstMatch : List Json → String → Option (Option Json)
  | [], _ => some none
  | b :: rest, targetLower =>
    match matchTitle b targetLower with
    | none => none
    | some true => some (some b)
    | some false => findFirstMatch rest targetLower

/-- Python `list.remove(x)`: remove the first element `==`-equal to `x`
(no-op shape when absent, though `delete_book` only calls it on a member). -/
def removeFirstEq : List Json → Json → List Json
  | [], _ => []
  | x :: rest, b => if Json.beq x b then rest else x :: removeFirstEq rest b

/-- `delete_book`: strip the requested title, remove the first record whose
title matches case-insensitively and save, else report not-found.  The
returned string is the printed message. -/
def delete_book (c : BookCollection) (titleInput : String) :
    Option (BookCollection × String) :=
  let book_title := strTrim titleInput
  (findFirstMatch c.book_list (strLower book_title)).map fun
    | some b =>
      let books := removeFirstEq c.book_list b
      ({ book_list := books, storage_file := save_to_file books },
       "Book removed successfully!\n")
    | none => (c, "Book not found")

/-- The per-record search test of `find_book`:
`search_text in book.get("title", "").lower() or search_text in
book.get("author", "").lower()`, with the Python short-circuit `or` (the author
value is never touched when the title already matches); `none` on an uncaught
exception (non-dict record or non-string title/author value). -/
def bookSearchMatch (b : Json) (search_text : String) : Option Bool :=
  match b with
  | .obj kvs =>
    match getD kvs "title" (.str "") with
    | .str t =>
      if containsSub (strLower t) search_text then some true
      else
        match getD kvs "author" (.str "") with
        | .str a => some (containsSub (strLower a) search_text)
        | _ => none
    | _ => none
  | _ => none

/-- The list comprehension of `find_book`, in collection order. -/
def findMatching : List Json → String → Option (List Json)
  | [], _ => some []
  | b :: rest, search_text =>
    match bookSearchMatch b search_text with
    | none => none
    | some m =>
      (findMatching rest search_text).map fun found =>
        if m then b :: found else found

/-- `find_book`: the search-type answer is read but never used — both
choices run the same title-or-author substring filter; the search term is
lowercased but (unlike elsewhere) not stripped. -/
def find_book (book_list : List Json) (_searchTypeInput searchInput : String) :
    Option (List Json) :=
  let search_text := strLower searchInput
  findMatching book_list search_text

/-- The generator `sum(1 for book in self.book_list if book.get("read", False))`:
count the records with a truthy `read` value; `none` when some record is not
a dict (uncaught AttributeError). -/
def countRead : List Json → Option Nat
  | [] => some 0
  | b :: rest =>
    match b with
    | .obj kvs =>
      (countRead rest).map fun n =>
        if (getD kvs "read" (.bool false)).truthy then n + 1 else n
    | _ => none

/-- `show_reading_progress`: total count, completed count and completion
rate, with the explicit guard `if total_books > 0 else 0` against division by
zero.  Python float division is modelled by exact rational division. -/
def show_reading_progress (book_list : List Json) : Option (Nat × Nat × ℚ) :=
  (countRead book_list).map fun (completed_books : Nat) =>
    let total_books := book_list.length
    let completion_rate : ℚ :=
      if total_books > 0 then (completed_books : ℚ) / (total_books : ℚ) * 100 else 0
    (total_books, completed_books, completion_rate)

/-- One field update `book[key] = input(...).strip() or book[key]` of
`update_book`: a non-blank stripped input is stored; a blank input re-stores
the current value `book[key]`, which raises an uncaught KeyError (`none`)
when the key is absent. -/
def updateField (kvs : List (String × Json)) (key : String) (newInput : String) :
    Option (List (String × Json)) :=
  let s := strTrim newInput
  if s = "" then
    (lookupKey kvs key).map fun old => setKey kvs key old
  else
    some (setKey kvs key (.str s))

/-- The five field assignments of `update_book`, in source order; `read` is
unconditionally recomputed from the yes/no answer. -/
def updateBookFields (kvs : List (String × Json))
    (titleInput authorInput yearInput genreInput readInput : String) :
    Option (List (String × Json)) :=
  (updateField kvs "title" titleInput).bind fun kvs =>
    (updateField kvs "author" authorInput).bind fun kvs =>
      (updateField kvs "year" yearInput).bind fun kvs =>
        (updateField kvs "genre" genreInput).bind fun kvs =>
          some (setKey kvs "read" (.bool (parseReadAnswer readInput)))

/-- The scan of `update_book`: rewrite the first record whose title matches,
leave the rest untouched; the boolean records whether a match was found. -/
def update_book_go (book_list : List Json) (targetLower : String)
    (titleInput authorInput yearInput genreInput readInput : String) :
    Option (List Json × Bool) :=
  match book_list with
  | [] => some ([], false)
  | b :: rest =>
    match b with
    | .obj kvs =>
      match titleMatches kvs targetLower with
      | none => none
      | some true =>
        (updateBookFields kvs titleInput authorInput yearInput genreInput
            readInput).map fun kvs2 => (Json.obj kvs2 :: rest, true)
      | some false =>
        (update_book_go rest targetLower titleInput authorInput yearInput
            genreInput readInput).map fun p => (b :: p.1, p.2)
    | _ => none

/-- `update_book`: strip the requested title, update the first record whose
title matches case-insensitively and save, else report not-found.  The
returned string is the printed message. -/
def update_book (c : BookCollection) (titleInput : String)
    (newTitle newAuthor newYear newGenre newRead : String) :
    Option (BookCollection × String) :=
  let book_title := strTrim titleInput
  (update_book_go c.book_list (strLower book_title) newTitle newAuthor newYear
      newGenre newRead).map fun p =>
    if p.2 then
      ({ book_list := p.1, storage_file := save_to_file p.1 },
       "Book updated successfully!\n")
    else
      ({ book_list := p.1, storage_file := c.storage_file }, "Book not found!\n")

/-! ## Basic lemmas about the embedded primitives -/

mutual

theorem Json.eq_of_beq : ∀ (x y : Json), Json.beq x y = true → x = y
  | .null, .null, _ => rfl
  | .bool _, .bool _, h => by
    simp only [Json.beq, beq_iff_eq] at h; rw [h]
  | .num _, .num _, h => by
    simp only [Json.beq, beq_iff_eq] at h; rw [h]
  | .str _, .str _, h => by
    simp only [Json.beq, beq_iff_eq] at h; rw [h]
  | .arr a, .arr b, h => by
    rw [Json.eqList_of_beqList a b h]
  | .obj a, .obj b, h => by
    rw [Json.eqFields_of_beqFields a b h]

theorem Json.eqList_of_beqList :
    ∀ (xs ys : List Json), Json.beqList xs ys = true → xs = ys
  | [], [], _ => rfl
  | x :: xs, y :: ys, h => by
    simp only [Json.beqList, Bool.and_eq_true] at h
    rw [Json.eq_of_beq x y h.1, Json.eqList_of_beqList xs ys h.2]

theorem Json.eqFields_of_beqFields :
    ∀ (xs ys : List (String × Json)), Json.beqFields xs ys = true → xs = ys
  | [], [], _ => rfl
  | (k, v) :: xs, (l, w) :: ys, h => by
    simp only [Json.beqFields, Bool.and_eq_true, beq_iff_eq] at h
    rw [h.1.1, Json.eq_of_beq v w h.1.2, Json.eqFields_of_beqFields xs ys h.2]

end

mutual

theorem Json.beq_refl : ∀ (x : Json), Json.beq x x = true
  | .null => rfl
  | .bool _ => by simp [Json.beq]
  | .num _ => by simp [Json.beq]
  | .str _ => by simp [Json.beq]
  | .arr a => by simp only [Json.beq]; exact Json.beqList_refl a
  | .obj a => by simp only [Json.beq]; exact Json.beqFields_refl a

theorem Json.beqList_refl : ∀ (xs : List Json), Json.beqList xs xs = true
  | [] => rfl
  | x :: xs => by
    simp only [Json.beqList, Bool.and_eq_true]
    exact ⟨Json.beq_refl x, Json.beqList_refl xs⟩

theorem Json.beqFields_refl : ∀ (xs : List (String × Json)), Json.beqFields xs xs = true
  | [] => rfl
  | (k, v) :: xs => by
    simp only [Json.beqFields, Bool.and_eq_true, beq_iff_eq]
    exact ⟨⟨trivial, Json.beq_refl v⟩, Json.beqFields_refl xs⟩

end

theorem lookupKey_setKey_self (kvs : List (String × Json)) (k : String) (v : Json) :
    lookupKey (setKey kvs k v) k = some v := by
  induction kvs with
  | nil => simp [setKey, lookupKey]
  | cons p rest ih =>
    obtain ⟨k', v'⟩ := p
    by_cases h : k' = k
    · simp [setKey, lookupKey, h]
    · simp [setKey, lookupKey, h, ih]

theorem lookupKey_setKey_ne (kvs : List (String × Json)) (k k' : String) (v : Json)
    (h : k' ≠ k) : lookupKey (setKey kvs k v) k' = lookupKey kvs k' := by
  induction kvs with
  | nil => simp [setKey, lookupKey, Ne.symm h]
  | cons p rest ih =>
    obtain ⟨k₀, v₀⟩ := p
    by_cases hk : k₀ = k
    · subst hk
      simp [setKey, lookupKey, Ne.symm h]
    · simp only [setKey, if_neg hk, lookupKey, ih]

theorem removeFirstEq_of_not_mem_beq (pre post : List Json) (b : Json)
    (hpre : ∀ x ∈ pre, Json.beq x b = false) :
    removeFirstEq (pre ++ b :: post) b = pre ++ post := by
  induction pre with
  | nil => simp [removeFirstEq, Json.beq_refl]
  | cons x rest ih =>
    have hx : Json.beq x b = false := hpre x (by simp)
    have ih' := ih fun y hy => hpre y (by simp [hy])
    simp only [List.cons_append, removeFirstEq, hx, Bool.false_eq_true, if_false]
    exact congrArg (x :: ·) ih'

theorem removeFirstEq_sublist (l : List Json) (b : Json) :
    (removeFirstEq l b).Sublist l := by
  induction l with
  | nil => simp [removeFirstEq]
  | cons x rest ih =>
    simp only [removeFirstEq]
    by_cases h : Json.beq x b = true
    · simp [h]
    · simp only [h, if_false]
      exact ih.cons₂ x

theorem findFirstMatch_of_all_false (l : List Json) (tl : String)
    (h : ∀ x ∈ l, matchTitle x tl = some false) :
    findFirstMatch l tl = some none := by
  induction l with
  | nil => rfl
  | cons x rest ih =>
    have hx := h x (by simp)
    simp only [findFirstMatch, hx]
    exact ih fun y hy => h y (by simp [hy])

theorem findFirstMatch_found (pre post : List Json) (b : Json) (tl : String)
    (hpre : ∀ x ∈ pre, matchTitle x tl = some false)
    (hb : matchTitle b tl = some true) :
    findFirstMatch (pre ++ b :: post) tl = some (some b) := by
  induction pre with
  | nil => simp [findFirstMatch, hb]
  | cons x rest ih =>
    have hx := hpre x (by simp)
    simp only [List.cons_append, findFirstMatch, hx]
    exact ih fun y hy => hpre y (by simp [hy])

theorem beq_false_of_matchTitle_ne (x b : Json) (tl : String)
    (hx : matchTitle x tl = some false) (hb : matchTitle b tl = some true) :
    Json.beq x b = false := by
  by_contra h
  have hxb : x = b := Json.eq_of_beq x b (by
    cases hxb : Json.beq x b
    · exact absurd hxb h
    · rfl)
  rw [hxb, hb] at hx
  simp at hx

theorem matchTitle_eq_some (b : Json) (tl : String) (m : Bool)
    (h : matchTitle b tl = some m) :
    ∃ kvs, b = .obj kvs ∧ titleMatches kvs tl = some m := by
  cases b with
  | obj kvs => exact ⟨kvs, rfl, h⟩
  | null => simp [matchTitle] at h
  | bool _ => simp [matchTitle] at h
  | num _ => simp [matchTitle] at h
  | str _ => simp [matchTitle] at h
  | arr _ => simp [matchTitle] at h

theorem updateField_some (kvs kvs2 : List (String × Json)) (key inp : String)
    (h : updateField kvs key inp = some kvs2) :
    lookupKey kvs2 key =
      (if strTrim inp = "" then lookupKey kvs key else some (.str (strTrim inp))) ∧
    (∀ k', k' ≠ key → lookupKey kvs2 k' = lookupKey kvs k') ∧
    hasKey kvs2 key = true := by
  by_cases hb : strTrim inp = ""
  · simp only [updateField, hb, if_true, Option.map_eq_some'] at h
    obtain ⟨old, hold, hset⟩ := h
    subst hset
    refine ⟨?_, ?_, ?_⟩
    · rw [if_pos hb, lookupKey_setKey_self, hold]
    · exact fun k' hk' => lookupKey_setKey_ne kvs key k' old hk'
    · rw [hasKey, lookupKey_setKey_self]; rfl
  · simp only [updateField, hb, if_false, Option.some.injEq] at h
    subst h
    refine ⟨?_, ?_, ?_⟩
    · rw [if_neg hb, lookupKey_setKey_self]
    · exact fun k' hk' => lookupKey_setKey_ne kvs key k' _ hk'
    · rw [hasKey, lookupKey_setKey_self]; rfl

theorem updateField_exists (kvs : List (String × Json)) (key inp : String)
    (hk : hasKey kvs key = true) :
    ∃ kvs2, updateField kvs key inp = some kvs2 := by
  by_cases hb : strTrim inp = ""
  · rw [hasKey, Option.isSome_iff_exists] at hk
    obtain ⟨v, hv⟩ := hk
    exact ⟨setKey kvs key v, by simp [updateField, hb, hv]⟩
  · exact ⟨setKey kvs key (.str (strTrim inp)), by simp [updateField, hb]⟩

theorem updateBookFields_some (kvs kvs2 : List (String × Json))
    (nt na ny ng nr : String)
    (h : updateBookFields kvs nt na ny ng nr = some kvs2) :
    lookupKey kvs2 "title" =
      (if strTrim nt = "" then lookupKey kvs "title" else some (.str (strTrim nt))) ∧
    lookupKey kvs2 "author" =
      (if strTrim na = "" then lookupKey kvs "author" else some (.str (strTrim na))) ∧
    lookupKey kvs2 "year" =
      (if strTrim ny = "" then lookupKey kvs "year" else some (.str (strTrim ny))) ∧
    lookupKey kvs2 "genre" =
      (if strTrim ng = "" then lookupKey kvs "genre" else some (.str (strTrim ng))) ∧
    lookupKey kvs2 "read" = some (.bool (parseReadAnswer nr)) ∧
    (∀ k, k ≠ "title" → k ≠ "author" → k ≠ "year" → k ≠ "genre" → k ≠ "read" →
      lookupKey kvs2 k = lookupKey kvs k) ∧
    hasKey kvs2 "title" = true ∧ hasKey kvs2 "author" = true := by
  simp only [updateBookFields, Option.bind_eq_some, Option.some.injEq] at h
  obtain ⟨k1, h1, k2, h2, k3, h3, k4, h4, h5⟩ := h
  subst h5
  obtain ⟨e1, n1, _⟩ := updateField_some kvs k1 "title" nt h1
  obtain ⟨e2, n2, _⟩ := updateField_some k1 k2 "author" na h2
  obtain ⟨e3, n3, _⟩ := updateField_some k2 k3 "year" ny h3
  obtain ⟨e4, n4, _⟩ := updateField_some k3 k4 "genre" ng h4
  refine ⟨?_, ?_, ?_, ?_, ?_, ?_, ?_, ?_⟩
  · rw [lookupKey_setKey_ne _ _ _ _ (by decide), n4 "title" (by decide),
      n3 "title" (by decide), n2 "title" (by decide), e1]
  · rw [lookupKey_setKey_ne _ _ _ _ (by decide), n4 "author" (by decide),
      n3 "author" (by decide), e2, n1 "author" (by decide)]
  · rw [lookupKey_setKey_ne _ _ _ _ (by decide), n4 "year" (by decide), e3,
      n2 "year" (by decide), n1 "year" (by decide)]
  · rw [lookupKey_setKey_ne _ _ _ _ (by decide), e4, n3 "genre" (by decide),
      n2 "genre" (by decide), n1 "genre" (by decide)]
  · rw [lookupKey_setKey_self]
  · intro k hkt hka hky hkg hkr
    rw [lookupKey_setKey_ne _ _ _ _ hkr, n4 k hkg, n3 k hky, n2 k hka, n1 k hkt]
  · rw [hasKey, lookupKey_setKey_ne _ _ _ _ (by decide), n4 "title" (by decide),
      n3 "title" (by decide), n2 "title" (by decide), e1]
    by_cases hb : strTrim nt = ""
    · rw [if_pos hb]
      have := updateField_some kvs k1 "title" nt h1
      -- in the blank case the update succeeded, so the old value was present
      simp only [updateField, hb, if_true, Option.map_eq_some'] at h1
      obtain ⟨old, hold, _⟩ := h1
      rw [hold]; rfl
    · rw [if_neg hb]; rfl
  · rw [hasKey, lookupKey_setKey_ne _ _ _ _ (by decide), n4 "author" (by decide),
      n3 "author" (by decide), e2]
    by_cases hb : strTrim na = ""
    · rw [if_pos hb]
      simp only [updateField, hb, if_true, Option.map_eq_some'] at h2
      obtain ⟨old, hold, _⟩ := h2
      rw [hold]; rfl
    · rw [if_neg hb]; rfl

theorem updateBookFields_exists (kvs : List (String × Json)) (nt na ny ng nr : String)
    (ht : hasKey kvs "title" = true) (ha : hasKey kvs "author" = true)
    (hy : hasKey kvs "year" = true) (hg : hasKey kvs "genre" = true) :
    ∃ kvs2, updateBookFields kvs nt na ny ng nr = some kvs2 := by
  obtain ⟨k1, h1⟩ := updateField_exists kvs "title" nt ht
  obtain ⟨e1, n1, _⟩ := updateField_some kvs k1 "title" nt h1
  obtain ⟨k2, h2⟩ := updateField_exists k1 "author" na
    (by rw [hasKey, n1 "author" (by decide)]; exact ha)
  obtain ⟨e2, n2, _⟩ := updateField_some k1 k2 "author" na h2
  obtain ⟨k3, h3⟩ := updateField_exists k2 "year" ny
    (by rw [hasKey, n2 "year" (by decide), n1 "year" (by decide)]; exact hy)
  obtain ⟨e3, n3, _⟩ := updateField_some k2 k3 "year" ny h3
  obtain ⟨k4, h4⟩ := updateField_exists k3 "genre" ng
    (by rw [hasKey, n3 "genre" (by decide), n2 "genre" (by decide),
      n1 "genre" (by decide)]; exact hg)
  exact ⟨setKey k4 "read" (.bool (parseReadAnswer nr)),
    by simp only [updateBookFields, Option.bind_eq_some]
       exact ⟨k1, h1, k2, h2, k3, h3, k4, h4, rfl⟩⟩

theorem update_book_go_notfound (l : List Json) (tl nt na ny ng nr : String)
    (h : ∀ x ∈ l, matchTitle x tl = some false) :
    update_book_go l tl nt na ny ng nr = some (l, false) := by
  induction l with
  | nil => rfl
  | cons b rest ih =>
    obtain ⟨kvs, hb, hm⟩ := matchTitle_eq_some b tl false (h b (by simp))
    subst hb
    simp only [update_book_go, hm]
    rw [ih fun y hy => h y (by simp [hy])]
    rfl

theorem update_book_go_found (pre post : List Json) (kvs kvs2 : List (String × Json))
    (tl nt na ny ng nr : String)
    (hpre : ∀ x ∈ pre, matchTitle x tl = some false)
    (hm : titleMatches kvs tl = some true)
    (hf : updateBookFields kvs nt na ny ng nr = some kvs2) :
    update_book_go (pre ++ .obj kvs :: post) tl nt na ny ng nr =
      some (pre ++ .obj kvs2 :: post, true) := by
  induction pre with
  | nil => simp [update_book_go, hm, hf]
  | cons x rest ih =>
    obtain ⟨kx, hkx, hmx⟩ := matchTitle_eq_some x tl false (hpre x (by simp))
    subst hkx
    have ih' : update_book_go (rest.append (Json.obj kvs :: post)) tl nt na ny ng nr =
        some (rest ++ Json.obj kvs2 :: post, true) :=
      ih fun y hy => hpre y (by simp [hy])
    simp only [List.cons_append, update_book_go, hmx]
    rw [ih']
    rfl

/-- A record whose `title` and `author` slots read back as strings (possibly
via the `""` default), as every record written by this program does. -/
def wellFormedBook (b : Json) : Prop :=
  ∃ kvs t a, b = .obj kvs ∧ getD kvs "title" (.str "") = .str t ∧
    getD kvs "author" (.str "") = .str a

/-- Pure form of the search test of `find_book` on well-formed records:
the term occurs in the lowercased title or in the lowercased author. -/
def searchHit (b : Json) (search_text : String) : Bool :=
  match b with
  | .obj kvs =>
    (match getD kvs "title" (.str "") with
     | .str t => containsSub (strLower t) search_text
     | _ => false) ||
    (match getD kvs "author" (.str "") with
     | .str a => containsSub (strLower a) search_text
     | _ => false)
  | _ => false

theorem bookSearchMatch_of_wf (b : Json) (st : String) (h : wellFormedBook b) :
    bookSearchMatch b st = some (searchHit b st) := by
  obtain ⟨kvs, t, a, rfl, ht, ha⟩ := h
  simp only [bookSearchMatch, searchHit, ht, ha]
  by_cases hc : containsSub (strLower t) st
  · simp [hc]
  · simp [hc]

theorem findMatching_of_wf (books : List Json) (st : String)
    (h : ∀ b ∈ books, wellFormedBook b) :
    findMatching books st = some (books.filter (fun b => searchHit b st)) := by
  induction books with
  | nil => rfl
  | cons b rest ih =>
    rw [findMatching, bookSearchMatch_of_wf b st (h b (by simp)),
      ih fun y hy => h y (by simp [hy])]
    by_cases hm : searchHit b st <;> simp [List.filter_cons, hm]

/-- A record that is a dict whose `read` value, when present, is a boolean —
the shape the data model prescribes for the `read` flag. -/
def properReadBook (b : Json) : Prop :=
  ∃ kvs, b = .obj kvs ∧ ∀ v, lookupKey kvs "read" = some v → ∃ t, v = .bool t

/-- Pure reading of the `read` flag of a record: `true` exactly when the
record is a dict whose `read` value is the boolean `true`. -/
def readTrue (b : Json) : Bool :=
  match b with
  | .obj kvs =>
    match lookupKey kvs "read" with
    | some (.bool t) => t
    | _ => false
  | _ => false

theorem countRead_of_proper (books : List Json)
    (h : ∀ b ∈ books, properReadBook b) :
    countRead books = some (books.filter readTrue).length := by
  induction books with
  | nil => rfl
  | cons b rest ih =>
    obtain ⟨kvs, hb, hv⟩ := h b (by simp)
    subst hb
    rw [countRead, ih fun y hy => h y (by simp [hy])]
    cases hl : lookupKey kvs "read" with
    | none => simp [getD, hl, Json.truthy, readTrue, List.filter_cons]
    | some v =>
      obtain ⟨t, rfl⟩ := hv v hl
      cases t <;> simp [getD, hl, Json.truthy, readTrue, List.filter_cons]

/-! ## The claims -/

/-- C1: for every JSON array parsed from the backing file, `read_from_file`
keeps exactly the subsequence (order preserved) of entries that are dicts
containing both a `title` and an `author` key, discarding all others; in
particular `[{"title":"A"}, {"foo":"bar"}, {"title":"B","author":"C"}]`
loads as `[{"title":"B","author":"C"}]`. -/
theorem read_from_file_keeps_exactly_valid_entries (xs : List Json) :
    read_from_file (.parsed (.arr xs)) = some (xs.filter isValidEntry) ∧
    (xs.filter isValidEntry).Sublist xs ∧
    (∀ b, b ∈ xs.filter isValidEntry ↔ b ∈ xs ∧ isValidEntry b = true) ∧
    read_from_file (.parsed (.arr
      [.obj [("title", .str "A")], .obj [("foo", .str "bar")],
       .obj [("title", .str "B"), ("author", .str "C")]])) =
      some [.obj [("title", .str "B"), ("author", .str "C")]] :=
  ⟨rfl, List.filter_sublist xs, fun b => by simp [List.mem_filter], rfl⟩

/-- C2: on a collection of valid records, `create_new_book` with an accepted
non-empty title appends exactly one new record (built from the stripped
inputs) at the end, leaves all prior records in place and in order, saves,
and reloading the saved file reproduces the collection including the new
entry. -/
theorem create_new_book_appends_and_round_trips
    (c : BookCollection) (titleInputs : List String)
    (authorInput yearInput genreInput readInput t : String)
    (hacc : acceptTitle titleInputs = some t)
    (hwf : ∀ b ∈ c.book_list, isValidEntry b = true) :
    create_new_book c titleInputs authorInput yearInput genreInput readInput =
      some ⟨c.book_list ++
          [Json.obj [("title", .str t), ("author", .str (strTrim authorInput)),
            ("year", .str (strTrim yearInput)), ("genre", .str (strTrim genreInput)),
            ("read", .bool (parseReadAnswer readInput))]],
        save_to_file (c.book_list ++
          [Json.obj [("title", .str t), ("author", .str (strTrim authorInput)),
            ("year", .str (strTrim yearInput)), ("genre", .str (strTrim genreInput)),
            ("read", .bool (parseReadAnswer readInput))]])⟩ ∧
    read_from_file (save_to_file (c.book_list ++
        [Json.obj [("title", .str t), ("author", .str (strTrim authorInput)),
          ("year", .str (strTrim yearInput)), ("genre", .str (strTrim genreInput)),
          ("read", .bool (parseReadAnswer readInput))]])) =
      some (c.book_list ++
        [Json.obj [("title", .str t), ("author", .str (strTrim authorInput)),
          ("year", .str (strTrim yearInput)), ("genre", .str (strTrim genreInput)),
          ("read", .bool (parseReadAnswer readInput))]]) := by
  constructor
  · rw [create_new_book, hacc]; rfl
  · have hall : ∀ b ∈ c.book_list ++
        [Json.obj [("title", .str t), ("author", .str (strTrim authorInput)),
          ("year", .str (strTrim yearInput)), ("genre", .str (strTrim genreInput)),
          ("read", .bool (parseReadAnswer readInput))]], isValidEntry b = true := by
      intro b hb
      rcases List.mem_append.mp hb with h | h
      · exact hwf b h
      · rw [List.mem_singleton.mp h]; rfl
    show some ((c.book_list ++ _).filter isValidEntry) = _
    rw [List.filter_eq_self.mpr hall]

/-- C2 witness: adding Dune to the empty collection. -/
theorem create_new_book_appends_and_round_trips_witness :
    create_new_book ⟨[], .missing⟩ ["Dune"] "Herbert" "1965" "SF" "no" =
      some ⟨[] ++
          [Json.obj [("title", .str "Dune"), ("author", .str (strTrim "Herbert")),
            ("year", .str (strTrim "1965")), ("genre", .str (strTrim "SF")),
            ("read", .bool (parseReadAnswer "no"))]],
        save_to_file ([] ++
          [Json.obj [("title", .str "Dune"), ("author", .str (strTrim "Herbert")),
            ("year", .str (strTrim "1965")), ("genre", .str (strTrim "SF")),
            ("read", .bool (parseReadAnswer "no"))]])⟩ ∧
    read_from_file (save_to_file ([] ++
        [Json.obj [("title", .str "Dune"), ("author", .str (strTrim "Herbert")),
          ("year", .str (strTrim "1965")), ("genre", .str (strTrim "SF")),
          ("read", .bool (parseReadAnswer "no"))]])) =
      some ([] ++
        [Json.obj [("title", .str "Dune"), ("author", .str (strTrim "Herbert")),
          ("year", .str (strTrim "1965")), ("genre", .str (strTrim "SF")),
          ("read", .bool (parseReadAnswer "no"))]]) :=
  create_new_book_appends_and_round_trips ⟨[], .missing⟩ ["Dune"]
    "Herbert" "1965" "SF" "no" "Dune" rfl (by simp)

/-- C4: when the collection splits as `pre ++ b :: post` with no
case-insensitive title match in `pre` and `b` matching, `delete_book` removes
exactly `b`, keeps every other record (later duplicates included) in order,
saves the result and prints the success message. -/
theorem delete_book_removes_exactly_first_match (c : BookCollection)
    (titleInput : String) (pre post : List Json) (b : Json)
    (hsplit : c.book_list = pre ++ b :: post)
    (hpre : ∀ x ∈ pre, matchTitle x (strLower (strTrim titleInput)) = some false)
    (hb : matchTitle b (strLower (strTrim titleInput)) = some true) :
    delete_book c titleInput =
      some (⟨pre ++ post, save_to_file (pre ++ post)⟩,
        "Book removed successfully!\n") := by
  have hfind : findFirstMatch c.book_list (strLower (strTrim titleInput)) =
      some (some b) := by
    rw [hsplit]; exact findFirstMatch_found pre post b _ hpre hb
  have hrem : removeFirstEq c.book_list b = pre ++ post := by
    rw [hsplit]
    exact removeFirstEq_of_not_mem_beq pre post b
      (fun x hx => beq_false_of_matchTitle_ne x b _ (hpre x hx) hb)
  simp only [delete_book, hfind, Option.map_some']
  rw [hrem]

/-- C4 witness: deleting "alpha" from a two-record collection with a later
duplicate keeps the duplicate. -/
theorem delete_book_removes_exactly_first_match_witness :
    delete_book ⟨[Json.obj [("title", .str "Alpha"), ("author", .str "X")],
        Json.obj [("title", .str "alpha"), ("author", .str "Y")]], .missing⟩
      " alpha " =
      some (⟨[] ++ [Json.obj [("title", .str "alpha"), ("author", .str "Y")]],
        save_to_file ([] ++ [Json.obj [("title", .str "alpha"), ("author", .str "Y")]])⟩,
        "Book removed successfully!\n") :=
  delete_book_removes_exactly_first_match
    ⟨[Json.obj [("title", .str "Alpha"), ("author", .str "X")],
      Json.obj [("title", .str "alpha"), ("author", .str "Y")]], .missing⟩
    " alpha " []
    [Json.obj [("title", .str "alpha"), ("author", .str "Y")]]
    (Json.obj [("title", .str "Alpha"), ("author", .str "X")])
    rfl (by simp) rfl

/-- C5: when the title of no record matches the stripped target
case-insensitively, `delete_book` and `update_book` both return the
collection unchanged (same in-memory list, same backing file, so no save)
together with an informational not-found message — and they return normally
(`some`), they do not raise. -/
theorem not_found_leaves_collection_unchanged (c : BookCollection)
    (titleInput nt na ny ng nr : String)
    (h : ∀ x ∈ c.book_list, matchTitle x (strLower (strTrim titleInput)) = some false) :
    delete_book c titleInput = some (c, "Book not found") ∧
    update_book c titleInput nt na ny ng nr = some (c, "Book not found!\n") := by
  constructor
  · simp only [delete_book, findFirstMatch_of_all_false _ _ h, Option.map_some']
  · simp only [update_book]
    rw [update_book_go_notfound _ _ _ _ _ _ _ h]
    rfl

/-- C5 witness: a search for a missing title on a one-record collection. -/
theorem not_found_leaves_collection_unchanged_witness :
    delete_book ⟨[Json.obj [("title", .str "A"), ("author", .str "B")]], .missing⟩
        "zzz" =
      some (⟨[Json.obj [("title", .str "A"), ("author", .str "B")]], .missing⟩,
        "Book not found") ∧
    update_book ⟨[Json.obj [("title", .str "A"), ("author", .str "B")]], .missing⟩
        "zzz" "" "" "" "" "" =
      some (⟨[Json.obj [("title", .str "A"), ("author", .str "B")]], .missing⟩,
        "Book not found!\n") :=
  not_found_leaves_collection_unchanged
    ⟨[Json.obj [("title", .str "A"), ("author", .str "B")]], .missing⟩
    "zzz" "" "" "" "" "" (by intro x hx; rw [List.mem_singleton.mp hx]; rfl)

/-- C8: a missing backing file (FileNotFoundError) or unparsable content
(json.JSONDecodeError) both load as the empty collection, with no error
surfaced to the caller. -/
theorem read_from_file_recovers_empty :
    read_from_file .missing = some [] ∧ read_from_file .malformed = some [] :=
  ⟨rfl, rfl⟩

/-- C3 counterexample: take the one-record collection
`[{"title":"x","author":"y"}]` — a legal load result in which the title "x"
occurs exactly once — and update it leaving every prompt blank.  The blank
year prompt evaluates `book["year"]` on a record with no `year` key, an
uncaught KeyError (modelled `none`): the update does not complete at all,
contradicting the claimed size-preserving field update for every such
collection. -/
theorem update_book_blank_field_missing_key_crashes :
    update_book ⟨[Json.obj [("title", .str "x"), ("author", .str "y")]], .missing⟩
      "x" "" "" "" "" "" = none := rfl

/-- C3 amended: on a collection where the stripped target title matches
exactly one record case-insensitively, and that record also carries `year`
and `genre` keys (so every blank prompt has a previous value to keep),
`update_book` keeps the collection size, rewrites only the matched record —
each of title/author/year/genre is set to the stripped input when non-blank
and keeps its previous value when blank, `read` is always recomputed from
the yes/no answer — leaves every other record and every other field
unchanged, and saves. -/
theorem update_book_updates_only_match (c : BookCollection)
    (titleInput nt na ny ng nr : String) (pre post : List Json)
    (kvs : List (String × Json))
    (hsplit : c.book_list = pre ++ Json.obj kvs :: post)
    (hpre : ∀ x ∈ pre, matchTitle x (strLower (strTrim titleInput)) = some false)
    (_hpost : ∀ x ∈ post, matchTitle x (strLower (strTrim titleInput)) = some false)
    (hm : titleMatches kvs (strLower (strTrim titleInput)) = some true)
    (ht : hasKey kvs "title" = true) (ha : hasKey kvs "author" = true)
    (hy : hasKey kvs "year" = true) (hg : hasKey kvs "genre" = true) :
    ∃ kvs2,
      update_book c titleInput nt na ny ng nr =
        some (⟨pre ++ Json.obj kvs2 :: post,
          save_to_file (pre ++ Json.obj kvs2 :: post)⟩,
          "Book updated successfully!\n") ∧
      (pre ++ Json.obj kvs2 :: post).length = c.book_list.length ∧
      lookupKey kvs2 "title" =
        (if strTrim nt = "" then lookupKey kvs "title" else some (.str (strTrim nt))) ∧
      lookupKey kvs2 "author" =
        (if strTrim na = "" then lookupKey kvs "author" else some (.str (strTrim na))) ∧
      lookupKey kvs2 "year" =
        (if strTrim ny = "" then lookupKey kvs "year" else some (.str (strTrim ny))) ∧
      lookupKey kvs2 "genre" =
        (if strTrim ng = "" then lookupKey kvs "genre" else some (.str (strTrim ng))) ∧
      lookupKey kvs2 "read" = some (.bool (parseReadAnswer nr)) ∧
      (∀ k, k ≠ "title" → k ≠ "author" → k ≠ "year" → k ≠ "genre" → k ≠ "read" →
        lookupKey kvs2 k = lookupKey kvs k) := by
  obtain ⟨kvs2, hf⟩ := updateBookFields_exists kvs nt na ny ng nr ht ha hy hg
  obtain ⟨e1, e2, e3, e4, e5, e6, _, _⟩ :=
    updateBookFields_some kvs kvs2 nt na ny ng nr hf
  refine ⟨kvs2, ?_, by rw [hsplit]; simp, e1, e2, e3, e4, e5, e6⟩
  have hgo : update_book_go c.book_list (strLower (strTrim titleInput))
      nt na ny ng nr = some (pre ++ Json.obj kvs2 :: post, true) := by
    rw [hsplit]
    exact update_book_go_found pre post kvs kvs2 _ nt na ny ng nr hpre hm hf
  simp only [update_book]
  rw [hgo]
  rfl

/-- C3 amended, witness: update "x" in a two-record collection, giving a new
title and year and leaving author/genre/read blank. -/
theorem update_book_updates_only_match_witness :
    ∃ kvs2,
      update_book ⟨[Json.obj [("title", .str "x"), ("author", .str "y"),
          ("year", .str "1"), ("genre", .str "g"), ("read", .bool true)],
          Json.obj [("title", .str "z"), ("author", .str "w")]], .missing⟩
        "X" "nx" "" "2" "" "" =
        some (⟨[] ++ Json.obj kvs2 ::
            [Json.obj [("title", .str "z"), ("author", .str "w")]],
          save_to_file ([] ++ Json.obj kvs2 ::
            [Json.obj [("title", .str "z"), ("author", .str "w")]])⟩,
          "Book updated successfully!\n") ∧
      ([] ++ Json.obj kvs2 ::
          [Json.obj [("title", .str "z"), ("author", .str "w")]]).length =
        [Json.obj [("title", .str "x"), ("author", .str "y"),
          ("year", .str "1"), ("genre", .str "g"), ("read", .bool true)],
          Json.obj [("title", .str "z"), ("author", .str "w")]].length ∧
      lookupKey kvs2 "title" =
        (if strTrim "nx" = ""
          then lookupKey [("title", Json.str "x"), ("author", Json.str "y"),
            ("year", Json.str "1"), ("genre", Json.str "g"),
            ("read", Json.bool true)] "title"
          else some (.str (strTrim "nx"))) ∧
      lookupKey kvs2 "author" =
        (if strTrim "" = ""
          then lookupKey [("title", Json.str "x"), ("author", Json.str "y"),
            ("year", Json.str "1"), ("genre", Json.str "g"),
            ("read", Json.bool true)] "author"
          else some (.str (strTrim ""))) ∧
      lookupKey kvs2 "year" =
        (if strTrim "2" = ""
          then lookupKey [("title", Json.str "x"), ("author", Json.str "y"),
            ("year", Json.str "1"), ("genre", Json.str "g"),
            ("read", Json.bool true)] "year"
          else some (.str (strTrim "2"))) ∧
      lookupKey kvs2 "genre" =
        (if strTrim "" = ""
          then lookupKey [("title", Json.str "x"), ("author", Json.str "y"),
            ("year", Json.str "1"), ("genre", Json.str "g"),
            ("read", Json.bool true)] "genre"
          else some (.str (strTrim ""))) ∧
      lookupKey kvs2 "read" = some (.bool (parseReadAnswer "")) ∧
      (∀ k, k ≠ "title" → k ≠ "author" → k ≠ "year" → k ≠ "genre" → k ≠ "read" →
        lookupKey kvs2 k =
          lookupKey [("title", Json.str "x"), ("author", Json.str "y"),
            ("year", Json.str "1"), ("genre", Json.str "g"),
            ("read", Json.bool true)] k) :=
  update_book_updates_only_match
    ⟨[Json.obj [("title", .str "x"), ("author", .str "y"),
        ("year", .str "1"), ("genre", .str "g"), ("read", .bool true)],
        Json.obj [("title", .str "z"), ("author", .str "w")]], .missing⟩
    "X" "nx" "" "2" "" "" []
    [Json.obj [("title", .str "z"), ("author", .str "w")]]
    [("title", Json.str "x"), ("author", Json.str "y"), ("year", Json.str "1"),
      ("genre", Json.str "g"), ("read", Json.bool true)]
    rfl (by simp)
    (by intro x hx; rw [List.mem_singleton.mp hx]; rfl)
    rfl rfl rfl rfl rfl

/-- The record produced by adding Dune to the empty collection. -/
def duneRecord : Json :=
  .obj [("title", .str "Dune"), ("author", .str "Herbert"),
    ("year", .str "1965"), ("genre", .str "SF"), ("read", .bool false)]

/-- C6: on a collection of records with string titles and authors,
`find_book` returns exactly the records whose lowercased title or author
contains the lowercased search term, in collection order, whatever
search-type choice was entered; after adding Dune to the empty collection,
searching "dune" returns exactly that record, and an unmatched search
returns the empty list as a normal (`some`) result. -/
theorem find_book_filters_by_substring (books : List Json)
    (searchType1 searchType2 searchInput : String)
    (hwf : ∀ b ∈ books, wellFormedBook b) :
    find_book books searchType1 searchInput =
      some (books.filter (fun b => searchHit b (strLower searchInput))) ∧
    find_book books searchType1 searchInput =
      find_book books searchType2 searchInput ∧
    (books.filter (fun b => searchHit b (strLower searchInput))).Sublist books ∧
    (∀ b, b ∈ books.filter (fun b => searchHit b (strLower searchInput)) ↔
      b ∈ books ∧ searchHit b (strLower searchInput) = true) ∧
    create_new_book ⟨[], .missing⟩ ["Dune"] "Herbert" "1965" "SF" "no" =
      some ⟨[duneRecord], save_to_file [duneRecord]⟩ ∧
    find_book [duneRecord] "1" "dune" = some [duneRecord] ∧
    find_book [duneRecord] "2" "zzzz" = some [] := by
  refine ⟨?_, rfl, List.filter_sublist books, fun b => by simp [List.mem_filter],
    rfl, rfl, rfl⟩
  simp only [find_book]
  exact findMatching_of_wf books (strLower searchInput) hwf

/-- C6 witness: the quantified part applied to the one-record Dune
collection. -/
theorem find_book_filters_by_substring_witness :
    find_book [duneRecord] "1" "dune" =
      some ([duneRecord].filter (fun b => searchHit b (strLower "dune"))) ∧
    find_book [duneRecord] "1" "dune" = find_book [duneRecord] "2" "dune" ∧
    ([duneRecord].filter (fun b => searchHit b (strLower "dune"))).Sublist
      [duneRecord] ∧
    (∀ b, b ∈ [duneRecord].filter (fun b => searchHit b (strLower "dune")) ↔
      b ∈ [duneRecord] ∧ searchHit b (strLower "dune") = true) ∧
    create_new_book ⟨[], .missing⟩ ["Dune"] "Herbert" "1965" "SF" "no" =
      some ⟨[duneRecord], save_to_file [duneRecord]⟩ ∧
    find_book [duneRecord] "1" "dune" = some [duneRecord] ∧
    find_book [duneRecord] "2" "zzzz" = some [] :=
  find_book_filters_by_substring [duneRecord] "1" "2" "dune"
    (by
      intro b hb
      rw [List.mem_singleton.mp hb]
      exact ⟨_, "Dune", "Herbert", rfl, rfl, rfl⟩)

/-- C7: on a collection of dict records whose `read` values are booleans
when present, `show_reading_progress` yields the triple
`(total, readCount, percentage)` with `readCount` the number of records
whose `read` flag is `true` and `percentage = readCount / total * 100`
guarded to `0` on the empty collection; it yields `(0, 0, 0)` on the empty
collection and `(2, 1, 50)` on a two-record collection with one record
read. -/
theorem show_reading_progress_counts_read (books : List Json)
    (h : ∀ b ∈ books, properReadBook b) :
    show_reading_progress books =
      some (books.length, (books.filter readTrue).length,
        if books.length > 0 then
          ((books.filter readTrue).length : ℚ) / (books.length : ℚ) * 100
        else 0) ∧
    show_reading_progress [] = some (0, 0, 0) ∧
    show_reading_progress
      [Json.obj [("title", .str "A"), ("author", .str "B"), ("read", .bool true)],
       Json.obj [("title", .str "C"), ("author", .str "D"), ("read", .bool false)]] =
      some (2, 1, 50) := by
  refine ⟨?_, rfl, ?_⟩
  · simp only [show_reading_progress]
    rw [countRead_of_proper books h]
    rfl
  · show some ((2 : Nat), (1 : Nat),
      if (2 : Nat) > 0 then ((1 : Nat) : ℚ) / ((2 : Nat) : ℚ) * 100 else 0) =
      some ((2 : Nat), (1 : Nat), (50 : ℚ))
    norm_num

/-- The two-record collection of the C7 scenario: one book read, one not. -/
def progressExample : List Json :=
  [Json.obj [("title", .str "A"), ("author", .str "B"), ("read", .bool true)],
   Json.obj [("title", .str "C"), ("author", .str "D"), ("read", .bool false)]]

/-- C7 witness: the quantified part applied to the two-record collection. -/
theorem show_reading_progress_counts_read_witness :
    show_reading_progress progressExample =
      some (progressExample.length, (progressExample.filter readTrue).length,
        if progressExample.length > 0 then
          ((progressExample.filter readTrue).length : ℚ) /
            (progressExample.length : ℚ) * 100
        else 0) :=
  (show_reading_progress_counts_read progressExample (by
    intro b hb
    simp only [progressExample, List.mem_cons, List.not_mem_nil, or_false] at hb
    rcases hb with hb1 | hb1
    · rw [hb1]
      exact ⟨_, rfl, fun v hv => by injection hv with hv1; exact ⟨true, hv1.symm⟩⟩
    · rw [hb1]
      exact ⟨_, rfl, fun v hv => by injection hv with hv1; exact ⟨false, hv1.symm⟩⟩)).1

theorem update_book_go_valid (l : List Json) (tl nt na ny ng nr : String)
    (p : List Json × Bool)
    (hwf : ∀ b ∈ l, isValidEntry b = true)
    (h : update_book_go l tl nt na ny ng nr = some p) :
    ∀ b ∈ p.1, isValidEntry b = true := by
  induction l generalizing p with
  | nil =>
    injection h with h1
    rw [← h1]
    intro b hb
    simp at hb
  | cons x rest ih =>
    cases x with
    | obj kvs =>
      rw [update_book_go] at h
      cases hm : titleMatches kvs tl with
      | none => rw [hm] at h; exact absurd h (by simp)
      | some m =>
        cases m with
        | true =>
          rw [hm] at h
          simp only [Option.map_eq_some'] at h
          obtain ⟨kvs2, hf, hp⟩ := h
          obtain ⟨_, _, _, _, _, _, h2t, h2a⟩ :=
            updateBookFields_some kvs kvs2 nt na ny ng nr hf
          rw [← hp]
          intro b hb
          rcases List.mem_cons.mp hb with hb1 | hb1
          · rw [hb1]
            show (hasKey kvs2 "title" && hasKey kvs2 "author") = true
            rw [h2t, h2a]
            rfl
          · exact hwf b (List.mem_cons_of_mem _ hb1)
        | false =>
          rw [hm] at h
          simp only [Option.map_eq_some'] at h
          obtain ⟨q, hq, hp⟩ := h
          rw [← hp]
          intro b hb
          rcases List.mem_cons.mp hb with hb1 | hb1
          · rw [hb1]; exact hwf _ (List.mem_cons_self _ _)
          · exact ih q (fun y hy => hwf y (List.mem_cons_of_mem _ hy)) hq b hb1
    | null => exact absurd (hwf _ (List.mem_cons_self _ _)) (by simp [isValidEntry])
    | bool _ => exact absurd (hwf _ (List.mem_cons_self _ _)) (by simp [isValidEntry])
    | num _ => exact absurd (hwf _ (List.mem_cons_self _ _)) (by simp [isValidEntry])
    | str _ => exact absurd (hwf _ (List.mem_cons_self _ _)) (by simp [isValidEntry])
    | arr _ => exact absurd (hwf _ (List.mem_cons_self _ _)) (by simp [isValidEntry])

/-- C9: every record held in memory is a dict with both `title` and `author`
keys — this holds for whatever `read_from_file` loads, and is preserved by
`create_new_book`, `delete_book` and `update_book` whenever they complete. -/
theorem collection_invariant_preserved :
    (∀ fc l, read_from_file fc = some l → ∀ b ∈ l, isValidEntry b = true) ∧
    (∀ (c : BookCollection) titleInputs a y g r c',
      (∀ b ∈ c.book_list, isValidEntry b = true) →
      create_new_book c titleInputs a y g r = some c' →
      ∀ b ∈ c'.book_list, isValidEntry b = true) ∧
    (∀ (c : BookCollection) t c' msg,
      (∀ b ∈ c.book_list, isValidEntry b = true) →
      delete_book c t = some (c', msg) →
      ∀ b ∈ c'.book_list, isValidEntry b = true) ∧
    (∀ (c : BookCollection) t nt na ny ng nr c' msg,
      (∀ b ∈ c.book_list, isValidEntry b = true) →
      update_book c t nt na ny ng nr = some (c', msg) →
      ∀ b ∈ c'.book_list, isValidEntry b = true) := by
  refine ⟨?_, ?_, ?_, ?_⟩
  · intro fc l h b hb
    cases fc with
    | missing => injection h with h1; rw [← h1] at hb; simp at hb
    | malformed => injection h with h1; rw [← h1] at hb; simp at hb
    | parsed j =>
      cases j with
      | arr xs =>
        injection h with h1
        rw [← h1] at hb
        exact (List.mem_filter.mp hb).2
      | obj _ => injection h with h1; rw [← h1] at hb; simp at hb
      | str _ => injection h with h1; rw [← h1] at hb; simp at hb
      | null => exact absurd h (by simp [read_from_file])
      | bool _ => exact absurd h (by simp [read_from_file])
      | num _ => exact absurd h (by simp [read_from_file])
  · intro c titleInputs a y g r c' hwf h
    simp only [create_new_book, Option.map_eq_some'] at h
    obtain ⟨t, _, hc⟩ := h
    rw [← hc]
    intro b hb
    rcases List.mem_append.mp hb with hb1 | hb1
    · exact hwf b hb1
    · rw [List.mem_singleton.mp hb1]; rfl
  · intro c t c' msg hwf h
    simp only [delete_book, Option.map_eq_some'] at h
    obtain ⟨res, hres, heq⟩ := h
    cases res with
    | none =>
      injection heq with h1 h2
      rw [← h1]
      exact hwf
    | some b0 =>
      injection heq with h1 h2
      rw [← h1]
      intro b hb
      exact hwf b ((removeFirstEq_sublist c.book_list b0).subset hb)
  · intro c t nt na ny ng nr c' msg hwf h
    simp only [update_book, Option.map_eq_some'] at h
    obtain ⟨p, hgo, heq⟩ := h
    have hv := update_book_go_valid c.book_list _ nt na ny ng nr p hwf hgo
    by_cases hp : p.2 = true
    · rw [if_pos hp] at heq
      injection heq with h1 h2
      rw [← h1]
      exact hv
    · rw [if_neg hp] at heq
      injection heq with h1 h2
      rw [← h1]
      exact hv

/-- C9 witness: a concrete load through the first clause of the invariant. -/
theorem collection_invariant_preserved_witness :
    isValidEntry (Json.obj [("title", .str "B"), ("author", .str "C")]) = true :=
  collection_invariant_preserved.1
    (.parsed (.arr [Json.obj [("title", .str "B"), ("author", .str "C")]]))
    [Json.obj [("title", .str "B"), ("author", .str "C")]] rfl
    (Json.obj [("title", .str "B"), ("author", .str "C")]) (by simp)

/-- C10: the stored `read` flag — `parseReadAnswer`, the shared
`input(...).strip().lower() == "yes"` of `create_new_book` and
`update_book` — is `true` exactly when the stripped, lowercased answer is
the string "yes"; "y", "true" and the empty answer all store `false`.  The
last two clauses tie this to the record actually stored: the record appended
by `create_new_book` and the record rewritten by the field block of `update_book`
both carry `read = parseReadAnswer answer`. -/
theorem read_flag_stored_iff_yes :
    (∀ s, parseReadAnswer s = true ↔ strLower (strTrim s) = "yes") ∧
    parseReadAnswer "y" = false ∧
    parseReadAnswer "true" = false ∧
    parseReadAnswer "" = false ∧
    parseReadAnswer " YES " = true ∧
    (∀ (c : BookCollection) titleInputs a y g r c',
      create_new_book c titleInputs a y g r = some c' →
      ∃ kvs, c'.book_list.getLast? = some (.obj kvs) ∧
        lookupKey kvs "read" = some (.bool (parseReadAnswer r))) ∧
    (∀ kvs kvs2 nt na ny ng nr,
      updateBookFields kvs nt na ny ng nr = some kvs2 →
      lookupKey kvs2 "read" = some (.bool (parseReadAnswer nr))) := by
  refine ⟨fun s => by simp [parseReadAnswer], rfl, rfl, rfl, rfl, ?_, ?_⟩
  · intro c titleInputs a y g r c' h
    simp only [create_new_book, Option.map_eq_some'] at h
    obtain ⟨t, _, hc⟩ := h
    refine ⟨[("title", .str t), ("author", .str (strTrim a)),
      ("year", .str (strTrim y)), ("genre", .str (strTrim g)),
      ("read", .bool (parseReadAnswer r))], ?_, rfl⟩
    rw [← hc]
    exact List.getLast?_concat _
  · intro kvs kvs2 nt na ny ng nr h
    exact (updateBookFields_some kvs kvs2 nt na ny ng nr h).2.2.2.2.1

/-- C10 witness: concrete answers through the iff and the create clause. -/
theorem read_flag_stored_iff_yes_witness :
    parseReadAnswer "Yes" = true ∧
    ∃ kvs, (BookCollection.book_list
        ⟨[duneRecord], save_to_file [duneRecord]⟩).getLast? =
        some (Json.obj kvs) ∧
      lookupKey kvs "read" = some (.bool (parseReadAnswer "no")) :=
  ⟨(read_flag_stored_iff_yes.1 "Yes").mpr rfl,
    read_flag_stored_iff_yes.2.2.2.2.2.1 ⟨[], .missing⟩ ["Dune"]
      "Herbert" "1965" "SF" "no" ⟨[duneRecord], save_to_file [duneRecord]⟩ rfl⟩
